import Mathlib

/-!
Verification of the ScanFlowWeb decision engine and API access layer.

The definitions below are shallow embeddings of the TypeScript source in
src/services/keepaApi.ts and src/services/ebayApi.ts.  JavaScript numbers
carrying integer cent amounts are modelled as integers.  Where the code
rounds the result of floating point arithmetic on non-integer values
(calculateFees), binary64 rounding is modelled explicitly: fl below rounds an
exact rational to the nearest double (53-bit significand, ties to even), and
Math.round is the exact half-up rounding of the value of its double argument
(floor(x + 1/2), per its ECMAScript definition).  Nullable values are Option,
and JavaScript NaN (from parseInt on a non digit) is modelled as the none of
an Option-valued arithmetic.
-/

namespace ScanFlow

/-- Math.round: rounds half toward positive infinity. -/
def jsRound (q : ℚ) : ℤ := ⌊q + 1/2⌋

/-- Computable form of Math.round applied to the quotient num/den (den positive):
floor (num/den + 1/2) = (2*num + den) / (2*den) with floor division. -/
def jsRoundRat (num den : ℤ) : ℤ := (2 * num + den) / (2 * den)

theorem int_floor_cast_div (a b : ℤ) (hb : 0 < b) : ⌊(a : ℚ) / (b : ℚ)⌋ = a / b := by
  have hbn : ((b.toNat : ℕ) : ℤ) = b := Int.toNat_of_nonneg hb.le
  have : ((b.toNat : ℕ) : ℚ) = (b : ℚ) := by exact_mod_cast congrArg (fun z : ℤ => (z : ℚ)) hbn
  rw [← this, Rat.floor_intCast_div_natCast, hbn]

theorem jsRoundRat_eq_jsRound (num den : ℤ) (h : 0 < den) :
    jsRoundRat num den = jsRound ((num : ℚ) / (den : ℚ)) := by
  have hden : ((den : ℚ)) ≠ 0 := by exact_mod_cast h.ne.symm
  have h2 : (0 : ℤ) < 2 * den := by omega
  have key : (num : ℚ) / (den : ℚ) + 1/2 = ((2 * num + den : ℤ) : ℚ) / ((2 * den : ℤ) : ℚ) := by
    push_cast
    field_simp
    ring
  unfold jsRoundRat jsRound
  rw [key, int_floor_cast_div _ _ h2]

theorem jsRound_eq_jsRoundRat (q : ℚ) : jsRound q = jsRoundRat q.num (q.den : ℤ) := by
  have hd : (0 : ℤ) < (q.den : ℤ) := by exact_mod_cast q.den_pos
  rw [jsRoundRat_eq_jsRound q.num (q.den : ℤ) hd]
  congr 1
  push_cast
  rw [Rat.num_div_den]

/-! ### Binary64 rounding

calculateFees feeds Math.round with results of IEEE-754 double arithmetic
(products with the literals 0.15 and 0.13 and the quotient profit/totalCost
times 100), and those roundings are observable: the double value of
(23/40)*100 lies just below 57.5, so Math.round returns 57 where exact
rational arithmetic would give 58.  fl rounds an exact rational to the
nearest binary64 value.  Overflow and subnormals lie far outside the ranges
these computations reach and are not modelled; additions and subtractions of
cent-scale integers are exact in binary64 and stay on the integers. -/

/-- Fuel-driven binary logarithm (structural recursion, so that concrete
instances reduce inside the kernel). -/
def log2Fuel : ℕ → ℕ → ℕ
  | 0, _ => 0
  | fuel + 1, n => if 2 ≤ n then log2Fuel fuel (n / 2) + 1 else 0

/-- Floor of log2 on naturals: natLog2 n = Nat.log2 n. -/
def natLog2 (n : ℕ) : ℕ := log2Fuel n n

/-- Rational multiplication written out on numerators and denominators
(kernel-reducible form of x * y; see qmul_eq_mul). -/
def qmul (x y : ℚ) : ℚ := Rat.divInt (x.num * y.num) ((x.den : ℤ) * (y.den : ℤ))

/-- Rational inverse written out (kernel-reducible form of x⁻¹). -/
def qinv (x : ℚ) : ℚ := Rat.divInt (x.den : ℤ) x.num

/-- Rational division written out (kernel-reducible form of x / y). -/
def qdiv (x y : ℚ) : ℚ := qmul x (qinv y)

theorem qmul_eq_mul (x y : ℚ) : qmul x y = x * y := by
  rw [qmul, ← Rat.divInt_mul_divInt' x.num (x.den : ℤ) y.num (y.den : ℤ),
    Rat.num_divInt_den, Rat.num_divInt_den]

theorem qinv_eq_inv (x : ℚ) : qinv x = x⁻¹ := by
  rw [qinv, ← Rat.inv_def]
  rfl

theorem qdiv_eq_div (x y : ℚ) : qdiv x y = x / y := by
  rw [qdiv, qmul_eq_mul, qinv_eq_inv, div_eq_mul_inv]

/-- 2^e as a rational, for a possibly negative exponent. -/
def pow2 (e : ℤ) : ℚ :=
  if 0 ≤ e then Rat.divInt (2 ^ e.toNat) 1 else Rat.divInt 1 (2 ^ (-e).toNat)

/-- For positive q, the e with 2^e ≤ q < 2^(e+1): guessed from the bit
lengths of numerator and denominator, then corrected by direct comparison. -/
def floorLog2 (q : ℚ) : ℤ :=
  let g : ℤ := (natLog2 q.num.toNat : ℤ) - (natLog2 q.den : ℤ)
  if pow2 (g + 1) ≤ q then g + 1
  else if pow2 g ≤ q then g
  else g - 1

/-- Round a rational to the nearest integer, ties to even.  f is the floor of
x and r the numerator of the fractional part x - f, compared against half the
denominator. -/
def roundNearestEven (x : ℚ) : ℤ :=
  let f : ℤ := x.num / (x.den : ℤ)
  let r : ℤ := x.num - f * (x.den : ℤ)
  if 2 * r < (x.den : ℤ) then f
  else if (x.den : ℤ) < 2 * r then f + 1
  else if f % 2 = 0 then f
  else f + 1

/-- Binary64 rounding of a positive rational: scale the value into the
significand range [2^52, 2^53), round to the nearest integer with ties to
even, and scale back. -/
def flPos (q : ℚ) : ℚ :=
  let e : ℤ := floorLog2 q - 52
  qmul ((roundNearestEven (qdiv q (pow2 e)) : ℤ) : ℚ) (pow2 e)

/-- Binary64 rounding (round to nearest, ties to even) of the exact rational
result of an operation, as every JS arithmetic operation performs it. -/
def fl (q : ℚ) : ℚ :=
  if q = 0 then 0
  else if q < 0 then -flPos (-q)
  else flPos q

/-- Double multiplication: the binary64 rounding of the exact product. -/
def dmul (x y : ℚ) : ℚ := fl (qmul x y)

/-- Double division: the binary64 rounding of the exact quotient. -/
def ddiv (x y : ℚ) : ℚ := fl (qdiv x y)

/-- The double denoted by the source literal 0.15. -/
def d0_15 : ℚ := fl (Rat.divInt 15 100)

/-- The double denoted by the source literal 0.13. -/
def d0_13 : ℚ := fl (Rat.divInt 13 100)

theorem dmul_eq (x y : ℚ) : dmul x y = fl (x * y) := by rw [dmul, qmul_eq_mul]

theorem ddiv_eq (x y : ℚ) : ddiv x y = fl (x / y) := by rw [ddiv, qdiv_eq_div]

/-- Sanity anchors for the float model: the known binary64 values of the two
literals (0.15 rounds down, 0.13 rounds up: 0.15 is stored as
0.1499999999999999944..., 0.13 as 0.13000000000000000444...). -/
theorem d0_15_eq : d0_15 = (5404319552844595 : ℚ) / 36028797018963968 := by
  rw [show d0_15 = Rat.divInt 5404319552844595 36028797018963968 from by decide,
    Rat.divInt_eq_div]
  norm_num

theorem d0_13_eq : d0_13 = (1170935903116329 : ℚ) / 9007199254740992 := by
  rw [show d0_13 = Rat.divInt 1170935903116329 9007199254740992 from by decide,
    Rat.divInt_eq_div]
  norm_num

/-- Truthiness of a nullable JS number: null, undefined and 0 are falsy. -/
def jsTruthyNum : Option ℤ → Bool
  | none => false
  | some v => v != 0

/-- Comparison a > b where a is a nullable JS number already known non-null at use site. -/
def jsNumGt (a : Option ℤ) (b : ℤ) : Bool :=
  match a with
  | some v => decide (v > b)
  | none => false

/-- Comparison a < b on a nullable JS number. -/
def jsNumLt (a : Option ℤ) (b : ℤ) : Bool :=
  match a with
  | some v => decide (v < b)
  | none => false

/-- Comparison a >= b on a nullable JS number. -/
def jsNumGe (a : Option ℤ) (b : ℤ) : Bool :=
  match a with
  | some v => decide (v ≥ b)
  | none => false

/-! ## Fee computation (keepaApi.ts, calculateFees) -/

structure FeeResult where
  fbaProfit : ℤ
  fbmProfit : ℤ
  fbaRoi : ℤ
  fbmRoi : ℤ
  referralFee : ℤ
  fulfillmentFee : ℤ
  deriving DecidableEq, Repr

def calculateFees (ebayPriceCents amazonPriceCents : ℤ) : FeeResult :=
  let referralFee := jsRound (dmul (amazonPriceCents : ℚ) d0_15)
  let fulfillmentFee : ℤ := 354
  let inboundShipping : ℤ := 50
  let closingFee : ℤ := 180
  let fbmShipping : ℤ := 399
  let ebayFee := jsRound (dmul (ebayPriceCents : ℚ) d0_13)
  let totalEbayCost := ebayPriceCents + ebayFee
  let fbaProfit := amazonPriceCents - referralFee - fulfillmentFee - inboundShipping - totalEbayCost
  let fbmProfit := amazonPriceCents - referralFee - closingFee - fbmShipping - totalEbayCost
  let fbaRoi := if totalEbayCost > 0 then
      jsRound (dmul (ddiv (fbaProfit : ℚ) (totalEbayCost : ℚ)) 100) else 0
  let fbmRoi := if totalEbayCost > 0 then
      jsRound (dmul (ddiv (fbmProfit : ℚ) (totalEbayCost : ℚ)) 100) else 0
  ⟨fbaProfit, fbmProfit, fbaRoi, fbmRoi, referralFee, fulfillmentFee⟩

/-! ## Decision classification (keepaApi.ts, makeDecision) -/

/-- Math.min on two integers. -/
def jsMin (a b : ℤ) : ℤ := if a ≤ b then a else b

/-- Math.max on two integers. -/
def jsMax (a b : ℤ) : ℤ := if b ≤ a then a else b

theorem jsMin_eq_min (a b : ℤ) : jsMin a b = min a b := (min_def a b).symm

theorem jsMax_eq_max (a b : ℤ) : jsMax a b = max a b := by
  unfold jsMax
  rw [max_def]
  rcases le_or_lt b a with h | h
  · rw [if_pos h]
    by_cases h2 : a ≤ b
    · rw [if_pos h2]
      omega
    · rw [if_neg h2]
  · rw [if_neg (by omega), if_pos h.le]

inductive Decision where
  | BUY
  | REVIEW
  | REJECT
  deriving DecidableEq, Repr

structure DecisionResult where
  decision : Decision
  reason : String
  score : ℤ
  deriving DecidableEq, Repr

/-- The scoring block of makeDecision (the code after the knockout filters):
base 50, the additive bonuses and the competition penalty, clamped by
Math.min(100, Math.max(0, score)). -/
def makeDecisionScore (profit roi : ℤ) (salesRank salesDrops30 : Option ℤ)
    (fbaCount : ℤ) : ℤ :=
  let s1 : ℤ := 50 + (if profit ≥ 1000 then 20 else if profit ≥ 500 then 10 else 0)
  let s2 : ℤ := s1 + (if roi ≥ 100 then 15 else if roi ≥ 50 then 10 else 0)
  let s3 : ℤ := s2 +
    (if jsTruthyNum salesRank then
      (if jsNumLt salesRank 100000 then 15
       else if jsNumLt salesRank 500000 then 10
       else if jsNumLt salesRank 1000000 then 5 else 0)
     else 0)
  let s4 : ℤ := s3 +
    (if jsTruthyNum salesDrops30 && jsNumGe salesDrops30 10 then 10
     else if jsTruthyNum salesDrops30 && jsNumGe salesDrops30 5 then 5 else 0)
  let s5 : ℤ := s4 - (if fbaCount > 10 then 10 else if fbaCount > 5 then 5 else 0)
  jsMin 100 (jsMax 0 s5)

def makeDecision (profit roi : ℤ) (salesRank salesDrops30 : Option ℤ)
    (fbaCount : ℤ) (isAmazon : Bool) : DecisionResult :=
  if profit < 300 then ⟨.REJECT, "Profit below $3", 0⟩
  else if roi < 30 then ⟨.REJECT, "ROI below 30%", 0⟩
  else if jsTruthyNum salesRank && jsNumGt salesRank 3000000 then
    ⟨.REJECT, "Rank too high (>3M)", 0⟩
  else if salesDrops30.isSome && jsNumLt salesDrops30 2 then
    ⟨.REJECT, "No sales velocity", 0⟩
  else if isAmazon then ⟨.REJECT, "Amazon is selling", 0⟩
  else
    let score : ℤ := makeDecisionScore profit roi salesRank salesDrops30 fbaCount
    if score ≥ 70 then ⟨.BUY, "Strong opportunity", score⟩
    else if score ≥ 50 then ⟨.REVIEW, "Needs review", score⟩
    else ⟨.REJECT, "Below threshold", score⟩

/-- Claim C1 counterexample: at buy 35 and sell 549 cents the profit is 23
and the total cost 40; the binary64 evaluation of (23/40)*100 is just below
57.5, so Math.round returns platform ROI 57, while the claim's
round(profit/totalCost*100) read over exact rationals is round(57.5) = 58. -/
theorem C1_counterexample :
    (calculateFees 35 549).referralFee = 82 ∧
    (calculateFees 35 549).fbaProfit = 23 ∧
    (calculateFees 35 549).fbaRoi = 57 ∧
    jsRoundRat (23 * 100) 40 = 58 ∧
    (57 : ℤ) ≠ 58 := by
  simp only [calculateFees, jsRound_eq_jsRoundRat]
  refine ⟨by decide, by decide, by decide, by decide, by decide⟩

/-- Claim C1 (amended): calculateFees returns referralFee = Math.round of the
binary64 product sell*0.15 and marketplace fee = Math.round of buy*0.13,
totalCost = buy + marketplace fee, platform profit = sell - referralFee -
354 - 50 - totalCost, merchant profit = sell - referralFee - 180 - 399 -
totalCost, and each ROI = Math.round of the binary64 evaluation of
(profit/totalCost)*100 when totalCost > 0 and 0 otherwise - which can be one
below the exact-rational round(profit/totalCost*100).  On the concrete
vector (1000, 3000) the binary64 and exact-rational roundings coincide:
referralFee 450, marketplace fee 130, totalCost 1130, platform profit
1016. -/
theorem C1_calculateFees_amended (b s : ℤ) :
    (calculateFees b s).referralFee = jsRound (dmul (s : ℚ) d0_15) ∧
    (calculateFees b s).fulfillmentFee = 354 ∧
    (calculateFees b s).fbaProfit =
      s - (calculateFees b s).referralFee - 354 - 50 -
        (b + jsRound (dmul (b : ℚ) d0_13)) ∧
    (calculateFees b s).fbmProfit =
      s - (calculateFees b s).referralFee - 180 - 399 -
        (b + jsRound (dmul (b : ℚ) d0_13)) ∧
    (calculateFees b s).fbaRoi =
      (if b + jsRound (dmul (b : ℚ) d0_13) > 0 then
        jsRound (dmul (ddiv (((calculateFees b s).fbaProfit : ℤ) : ℚ)
          (((b + jsRound (dmul (b : ℚ) d0_13)) : ℤ) : ℚ)) 100)
       else 0) ∧
    (calculateFees b s).fbmRoi =
      (if b + jsRound (dmul (b : ℚ) d0_13) > 0 then
        jsRound (dmul (ddiv (((calculateFees b s).fbmProfit : ℤ) : ℚ)
          (((b + jsRound (dmul (b : ℚ) d0_13)) : ℤ) : ℚ)) 100)
       else 0) ∧
    (calculateFees 1000 3000).referralFee = 450 ∧
    jsRound (dmul ((3000 : ℤ) : ℚ) d0_15) = jsRoundRat (3000 * 15) 100 ∧
    jsRound (dmul ((1000 : ℤ) : ℚ) d0_13) = 130 ∧
    jsRound (dmul ((1000 : ℤ) : ℚ) d0_13) = jsRoundRat (1000 * 13) 100 ∧
    (1000 : ℤ) + jsRound (dmul ((1000 : ℤ) : ℚ) d0_13) = 1130 ∧
    (calculateFees 1000 3000).fbaProfit = 1016 := by
  refine ⟨rfl, rfl, rfl, rfl, rfl, rfl, ?_, ?_, ?_, ?_, ?_, ?_⟩ <;>
    (simp only [calculateFees, jsRound_eq_jsRoundRat]; decide)

/-- Claim C2: the five knockout rules are applied before scoring, in the
precedence order profit, roi, rank, velocity, first-party seller; the first
matching rule yields REJECT with score 0 and that rule's reason, and the
profit rule in particular fires for any profit below 300 regardless of the
other arguments. -/
theorem C2_makeDecision_knockout_order (profit roi : ℤ)
    (salesRank salesDrops30 : Option ℤ) (fbaCount : ℤ) (isAmazon : Bool) :
    (profit < 300 →
      makeDecision profit roi salesRank salesDrops30 fbaCount isAmazon =
        ⟨.REJECT, "Profit below $3", 0⟩) ∧
    (¬ profit < 300 → roi < 30 →
      makeDecision profit roi salesRank salesDrops30 fbaCount isAmazon =
        ⟨.REJECT, "ROI below 30%", 0⟩) ∧
    (¬ profit < 300 → ¬ roi < 30 → ∀ r, salesRank = some r → 3000000 < r →
      makeDecision profit roi salesRank salesDrops30 fbaCount isAmazon =
        ⟨.REJECT, "Rank too high (>3M)", 0⟩) ∧
    (¬ profit < 300 → ¬ roi < 30 → (∀ r, salesRank = some r → r ≤ 3000000) →
      ∀ d, salesDrops30 = some d → d < 2 →
      makeDecision profit roi salesRank salesDrops30 fbaCount isAmazon =
        ⟨.REJECT, "No sales velocity", 0⟩) ∧
    (¬ profit < 300 → ¬ roi < 30 → (∀ r, salesRank = some r → r ≤ 3000000) →
      (∀ d, salesDrops30 = some d → 2 ≤ d) → isAmazon = true →
      makeDecision profit roi salesRank salesDrops30 fbaCount isAmazon =
        ⟨.REJECT, "Amazon is selling", 0⟩) := by
  refine ⟨?_, ?_, ?_, ?_, ?_⟩
  · intro h
    simp [makeDecision, h]
  · intro h1 h2
    simp [makeDecision, h1, h2]
  · intro h1 h2 r hr hgt
    subst hr
    have hne : r ≠ 0 := by omega
    simp [makeDecision, h1, h2, jsTruthyNum, jsNumGt, hne, hgt]
  · intro h1 h2 h3 d hd hlt
    subst hd
    have hrk : (jsTruthyNum salesRank && jsNumGt salesRank 3000000) = false := by
      cases salesRank with
      | none => rfl
      | some r =>
        have := h3 r rfl
        simp [jsTruthyNum, jsNumGt]
        omega
    simp [makeDecision, h1, h2, hrk, jsNumLt, hlt]
  · intro h1 h2 h3 h4 h5
    have hrk : (jsTruthyNum salesRank && jsNumGt salesRank 3000000) = false := by
      cases salesRank with
      | none => rfl
      | some r =>
        have := h3 r rfl
        simp [jsTruthyNum, jsNumGt]
        omega
    have hvel : (salesDrops30.isSome && jsNumLt salesDrops30 2) = false := by
      cases salesDrops30 with
      | none => rfl
      | some d =>
        have := h4 d rfl
        simp [jsNumLt]
        omega
    simp [makeDecision, h1, h2, hrk, hvel, h5]

theorem C2_makeDecision_knockout_order_witness :
    makeDecision 250 50 (some 100000) (some 5) 2 false =
      ⟨Decision.REJECT, "Profit below $3", 0⟩ :=
  (C2_makeDecision_knockout_order 250 50 (some 100000) (some 5) 2 false).1 (by norm_num)

/-- Scoring formula from claim C3, amended only in the rank bonus: the code
checks JS truthiness of salesRank, so a present rank equal to 0 earns no
bonus (like an absent rank), while the original claim granted it +15. -/
def specScoreAmended (profit roi : ℤ) (salesRank salesDrops30 : Option ℤ)
    (fbaCount : ℤ) : ℤ :=
  let profitBonus : ℤ := if profit ≥ 1000 then 20 else if profit ≥ 500 then 10 else 0
  let roiBonus : ℤ := if roi ≥ 100 then 15 else if roi ≥ 50 then 10 else 0
  let rankBonus : ℤ :=
    match salesRank with
    | some r =>
      if r = 0 then 0
      else if r < 100000 then 15
      else if r < 500000 then 10
      else if r < 1000000 then 5
      else 0
    | none => 0
  let velBonus : ℤ :=
    match salesDrops30 with
    | some d => if d ≥ 10 then 10 else if d ≥ 5 then 5 else 0
    | none => 0
  let compPenalty : ℤ := if fbaCount > 10 then 10 else if fbaCount > 5 then 5 else 0
  min 100 (max 0 (50 + profitBonus + roiBonus + rankBonus + velBonus - compPenalty))

/-- Claim C3 counterexample: with a present sales rank equal to 0 the claim's
formula predicts clamp(50+20+15+15+10) = 100, but the code treats rank 0 as
falsy and awards no rank bonus, returning score 95. -/
theorem C3_counterexample :
    (makeDecision 1200 120 (some 0) (some 12) 2 false).score = 95 ∧
    (95 : ℤ) ≠ jsMin 100 (jsMax 0 (50 + 20 + 15 + 15 + 10 - 0)) := by
  constructor
  · decide
  · decide

theorem rankBonusBridge (o : Option ℤ) :
    (if jsTruthyNum o then
      (if jsNumLt o 100000 then (15 : ℤ)
       else if jsNumLt o 500000 then 10
       else if jsNumLt o 1000000 then 5 else 0)
     else 0) =
    (match o with
     | some r =>
       if r = 0 then (0 : ℤ)
       else if r < 100000 then 15
       else if r < 500000 then 10
       else if r < 1000000 then 5
       else 0
     | none => 0) := by
  cases o with
  | none => rfl
  | some r =>
    by_cases h0 : r = 0
    · subst h0
      rfl
    · simp [jsTruthyNum, jsNumLt, h0]

theorem velBonusBridge (o : Option ℤ) :
    (if jsTruthyNum o && jsNumGe o 10 then (10 : ℤ)
     else if jsTruthyNum o && jsNumGe o 5 then 5 else 0) =
    (match o with
     | some d => if d ≥ 10 then (10 : ℤ) else if d ≥ 5 then 5 else 0
     | none => 0) := by
  cases o with
  | none => rfl
  | some d =>
    by_cases h10 : d ≥ 10
    · have hne : d ≠ 0 := by omega
      simp [jsTruthyNum, jsNumGe, hne, h10]
    · by_cases h5 : d ≥ 5
      · have hne : d ≠ 0 := by omega
        simp [jsTruthyNum, jsNumGe, hne, h10, h5]
      · by_cases hne : d = 0
        · subst hne
          rfl
        · simp [jsTruthyNum, jsNumGe, hne, h10, h5]

/-- The scoring block computes exactly the amended claim formula. -/
theorem makeDecisionScore_eq_spec (profit roi : ℤ) (salesRank salesDrops30 : Option ℤ)
    (fbaCount : ℤ) :
    makeDecisionScore profit roi salesRank salesDrops30 fbaCount =
      specScoreAmended profit roi salesRank salesDrops30 fbaCount := by
  unfold makeDecisionScore specScoreAmended
  simp only [rankBonusBridge, velBonusBridge, jsMin_eq_min, jsMax_eq_max]

/-- Claim C3 (amended): when no knockout fires the score is base 50 plus the
additive bonuses clamped to the range 0..100, where the rank bonus requires a
present and nonzero salesRank; the decision is BUY / REVIEW / REJECT by the
70 and 50 thresholds; the concrete instance scores 100 and is a BUY; and the
score is within 0..100 on every input. -/
theorem C3_makeDecision_scoring :
    (∀ (profit roi : ℤ) (salesRank salesDrops30 : Option ℤ) (fbaCount : ℤ),
      ¬ profit < 300 → ¬ roi < 30 →
      (∀ r, salesRank = some r → r ≤ 3000000) →
      (∀ d, salesDrops30 = some d → 2 ≤ d) →
      makeDecision profit roi salesRank salesDrops30 fbaCount false =
        (if specScoreAmended profit roi salesRank salesDrops30 fbaCount ≥ 70 then
          ⟨.BUY, "Strong opportunity",
            specScoreAmended profit roi salesRank salesDrops30 fbaCount⟩
         else if specScoreAmended profit roi salesRank salesDrops30 fbaCount ≥ 50 then
          ⟨.REVIEW, "Needs review",
            specScoreAmended profit roi salesRank salesDrops30 fbaCount⟩
         else
          ⟨.REJECT, "Below threshold",
            specScoreAmended profit roi salesRank salesDrops30 fbaCount⟩)) ∧
    (∀ (profit roi : ℤ) (salesRank salesDrops30 : Option ℤ) (fbaCount : ℤ)
      (isAmazon : Bool),
      0 ≤ (makeDecision profit roi salesRank salesDrops30 fbaCount isAmazon).score ∧
      (makeDecision profit roi salesRank salesDrops30 fbaCount isAmazon).score ≤ 100) ∧
    (makeDecision 1200 120 (some 50000) (some 12) 2 false).score = 100 ∧
    (makeDecision 1200 120 (some 50000) (some 12) 2 false).decision = Decision.BUY := by
  have scoreRange : ∀ (profit roi : ℤ) (salesRank salesDrops30 : Option ℤ) (fbaCount : ℤ),
      0 ≤ makeDecisionScore profit roi salesRank salesDrops30 fbaCount ∧
      makeDecisionScore profit roi salesRank salesDrops30 fbaCount ≤ 100 := by
    intro profit roi salesRank salesDrops30 fbaCount
    unfold makeDecisionScore
    rw [jsMin_eq_min, jsMax_eq_max]
    constructor
    · exact le_min (by norm_num) (le_max_left 0 _)
    · exact min_le_left _ _
  refine ⟨?_, ?_, ?_, ?_⟩
  · intro profit roi salesRank salesDrops30 fbaCount h1 h2 h3 h4
    have hrk : (jsTruthyNum salesRank && jsNumGt salesRank 3000000) = false := by
      cases salesRank with
      | none => rfl
      | some r =>
        have := h3 r rfl
        simp [jsTruthyNum, jsNumGt]
        omega
    have hvel : (salesDrops30.isSome && jsNumLt salesDrops30 2) = false := by
      cases salesDrops30 with
      | none => rfl
      | some d =>
        have := h4 d rfl
        simp [jsNumLt]
        omega
    unfold makeDecision
    rw [if_neg h1, if_neg h2, hrk, hvel]
    simp only [Bool.false_eq_true, if_false, makeDecisionScore_eq_spec]
  · intro profit roi salesRank salesDrops30 fbaCount isAmazon
    have zeroRange : (0 : ℤ) ≤ 0 ∧ (0 : ℤ) ≤ 100 := by norm_num
    unfold makeDecision
    by_cases h1 : profit < 300
    · rw [if_pos h1]
      exact zeroRange
    · rw [if_neg h1]
      by_cases h2 : roi < 30
      · rw [if_pos h2]
        exact zeroRange
      · rw [if_neg h2]
        by_cases h3 : (jsTruthyNum salesRank && jsNumGt salesRank 3000000) = true
        · rw [if_pos h3]
          exact zeroRange
        · rw [if_neg h3]
          by_cases h4 : (salesDrops30.isSome && jsNumLt salesDrops30 2) = true
          · rw [if_pos h4]
            exact zeroRange
          · rw [if_neg h4]
            by_cases h5 : isAmazon = true
            · rw [if_pos h5]
              exact zeroRange
            · rw [if_neg h5]
              simp only []
              split_ifs
              · exact scoreRange _ _ _ _ _
              · exact scoreRange _ _ _ _ _
              · exact scoreRange _ _ _ _ _
  · decide
  · decide

/-! ## ISBN utilities (keepaApi.ts, isbn10to13 / isbn13to10)

JS strings are lists of characters.  parseInt on a non-digit character gives
NaN; NaN is modelled as none, and since every number appearing in these two
functions is nonnegative, values live in Option of a natural number.  String
concatenation with NaN appends the three characters of the string NaN. -/

/-- Characters matched by the JS regex token for whitespace (the ECMAScript
WhiteSpace and LineTerminator sets). -/
def isJsWhitespace (c : Char) : Bool :=
  c = ' ' || c = '\t' || c = '\n' || c = '\x0b' || c = '\x0c' || c = '\r' ||
  c = '\u00A0' || c = '\u1680' || c = '\u2000' || c = '\u2001' || c = '\u2002' ||
  c = '\u2003' || c = '\u2004' || c = '\u2005' || c = '\u2006' || c = '\u2007' ||
  c = '\u2008' || c = '\u2009' || c = '\u200A' || c = '\u2028' || c = '\u2029' ||
  c = '\u202F' || c = '\u205F' || c = '\u3000' || c = '\uFEFF'

/-- The characters kept by replacing hyphens and whitespace with nothing. -/
def keepChar (c : Char) : Bool := !(c = '-' || isJsWhitespace c)

/-- str.replace removing every hyphen and whitespace character. -/
def stripHyphensSpaces (l : List Char) : List Char := l.filter keepChar

/-- ASCII digit test: exactly the characters parseInt accepts in base 10. -/
def isDigitChar (c : Char) : Bool := decide (48 ≤ c.toNat ∧ c.toNat ≤ 57)

/-- parseInt(c, 10) of one character: its digit value, or none for NaN. -/
def parseIntDigit (c : Char) : Option ℕ :=
  if isDigitChar c then some (c.toNat - 48) else none

/-- NaN-propagating addition. -/
def jsAdd : Option ℕ → Option ℕ → Option ℕ
  | some a, some b => some (a + b)
  | _, _ => none

/-- NaN-propagating multiplication. -/
def jsMul : Option ℕ → Option ℕ → Option ℕ
  | some a, some b => some (a * b)
  | _, _ => none

/-- NaN-propagating subtraction; every difference taken in the ISBN code has a
nonnegative result, so truncated subtraction agrees with JS. -/
def jsSub : Option ℕ → Option ℕ → Option ℕ
  | some a, some b => some (a - b)
  | _, _ => none

/-- NaN-propagating remainder (nonnegative operands). -/
def jsModN (a : Option ℕ) (m : ℕ) : Option ℕ := a.map (fun x => x % m)

/-- Rendering a JS number into a string: NaN prints as NaN. -/
def jsNumRender : Option ℕ → List Char
  | none => ['N', 'a', 'N']
  | some v => (toString v).toList

/-- The checksum loop of isbn10to13: for i in 0..11, add
parseInt(base[i]) * (1 or 3 as i is even or odd).  base has exactly 12
characters when the loop runs, so structural recursion with an index carries
the same iterations. -/
def isbn13ChecksumFrom : ℕ → List Char → Option ℕ
  | _, [] => some 0
  | i, c :: cs =>
    jsAdd (jsMul (parseIntDigit c) (some (if i % 2 = 0 then 1 else 3)))
      (isbn13ChecksumFrom (i + 1) cs)

/-- The checksum loop of isbn13to10: for i in 0..8, add
parseInt(base[i]) * (10 - i). -/
def isbn10ChecksumFrom : ℕ → List Char → Option ℕ
  | _, [] => some 0
  | i, c :: cs =>
    jsAdd (jsMul (parseIntDigit c) (some (10 - i))) (isbn10ChecksumFrom (i + 1) cs)

def isbn10to13 (isbn10 : String) : Option String :=
  let clean := stripHyphensSpaces isbn10.toList
  if clean.length ≠ 10 then none
  else
    let base := ['9', '7', '8'] ++ clean.take 9
    let sum := isbn13ChecksumFrom 0 base
    let checkDigit := jsModN (jsSub (some 10) (jsModN sum 10)) 10
    some (String.mk (base ++ jsNumRender checkDigit))

def isbn13to10 (isbn13 : String) : Option String :=
  let clean := stripHyphensSpaces isbn13.toList
  if clean.length ≠ 13 || !(decide (clean.take 3 = ['9', '7', '8'])) then none
  else
    let base := (clean.drop 3).take 9
    let sum := isbn10ChecksumFrom 0 base
    let remainder := jsModN sum 11
    let checkDigit : List Char :=
      if remainder = some 0 then ['0']
      else if remainder = some 1 then ['X']
      else jsNumRender (jsSub (some 11) remainder)
    some (String.mk (base ++ checkDigit))

/-- Value of a character in the last position of an ISBN-10: a digit or X. -/
def isbn10CharVal (c : Char) : Option ℕ :=
  if isDigitChar c then some (c.toNat - 48) else if c = 'X' then some 10 else none

/-- A valid 10-digit ISBN: ten characters, the first nine decimal digits, and
a correct ISBN-10 check digit (weighted sum divisible by 11, X standing
for 10). -/
def isValidIsbn10 (s : String) : Bool :=
  match s.toList with
  | [c0, c1, c2, c3, c4, c5, c6, c7, c8, c9] =>
    isDigitChar c0 && isDigitChar c1 && isDigitChar c2 && isDigitChar c3 &&
    isDigitChar c4 && isDigitChar c5 && isDigitChar c6 && isDigitChar c7 &&
    isDigitChar c8 &&
    (match isbn10CharVal c9 with
     | some v =>
       decide ((10 * (c0.toNat - 48) + 9 * (c1.toNat - 48) + 8 * (c2.toNat - 48) +
         7 * (c3.toNat - 48) + 6 * (c4.toNat - 48) + 5 * (c5.toNat - 48) +
         4 * (c6.toNat - 48) + 3 * (c7.toNat - 48) + 2 * (c8.toNat - 48) + v) % 11 = 0)
     | none => false)
  | _ => false

/-- Claim C5 counterexample: the code (and ISBN-13 arithmetic) gives check
digit 7 for 0306406152, not the 3 stated by the spec. -/
theorem C5_counterexample :
    isbn10to13 "0306406152" = some "9780306406157" ∧
    ("9780306406157" : String) ≠ "9780306406153" := by
  constructor
  · rfl
  · decide

/-- Claim C5 (amended): isbn10to13 "0306406152" returns "9780306406153"
with the correct check digit 7, i.e. "9780306406157". -/
theorem C5_amended : isbn10to13 "0306406152" = some "9780306406157" := rfl

/-- Claim C6 counterexample: a 10-character non-numeric input is not
rejected; parseInt produces NaN and the function returns a non-null string
ending in NaN.  Likewise for a 13-character input with the 978 prefix. -/
theorem C6_counterexample :
    isbn10to13 "abcdefghij" = some "978abcdefghiNaN" ∧
    isbn10to13 "abcdefghij" ≠ none ∧
    isbn13to10 "978abcdefghij" = some "abcdefghiNaN" ∧
    isbn13to10 "978abcdefghij" ≠ none := by
  refine ⟨rfl, ?_, rfl, ?_⟩
  · intro h
    simp [isbn10to13, stripHyphensSpaces] at h
    revert h
    decide
  · intro h
    simp [isbn13to10, stripHyphensSpaces] at h
    revert h
    decide

/-- Claim C6 (amended): the only malformed inputs the functions reject with
null are length failures (and the missing 978 prefix for isbn13to10) of the
hyphen/space-stripped input; such inputs always yield null and the functions
never throw (they are total).  Non-numeric characters at a valid length are
not rejected. -/
theorem C6_null_iff (s : String) :
    (isbn10to13 s = none ↔ (stripHyphensSpaces s.toList).length ≠ 10) ∧
    (isbn13to10 s = none ↔
      ((stripHyphensSpaces s.toList).length ≠ 13 ∨
        (stripHyphensSpaces s.toList).take 3 ≠ ['9', '7', '8'])) := by
  constructor
  · unfold isbn10to13
    simp only []
    split_ifs with h
    · exact iff_of_true rfl h
    · exact iff_of_false (by simp) h
  · unfold isbn13to10
    simp only []
    split_ifs with h
    · simp only [Bool.or_eq_true, decide_eq_true_eq, Bool.not_eq_true',
        decide_eq_false_iff_not] at h
      exact iff_of_true rfl h
    · simp only [Bool.or_eq_true, decide_eq_true_eq, Bool.not_eq_true',
        decide_eq_false_iff_not] at h
      push_neg at h
      refine iff_of_false (by simp) ?_
      push_neg
      exact h

theorem char_eq_iff_toNat (c w : Char) : c = w ↔ c.toNat = w.toNat := by
  constructor
  · intro h
    rw [h]
  · intro h
    rw [← Char.ofNat_toNat c, ← Char.ofNat_toNat w, h]

theorem keepChar_of_digit (c : Char) (h : isDigitChar c = true) : keepChar c = true := by
  unfold keepChar
  cases hcc : (decide (c = '-') || isJsWhitespace c) with
  | false => rfl
  | true =>
    simp only [isJsWhitespace, Bool.or_eq_true, decide_eq_true_eq] at hcc
    rcases hcc with rfl | hw
    · exact absurd h (by decide)
    · rcases hw with ((((((((((((((((((((((((rfl) | rfl) | rfl) | rfl) | rfl) | rfl) | rfl) | rfl) | rfl) | rfl) | rfl) | rfl) | rfl) | rfl) | rfl) | rfl) | rfl) | rfl) | rfl) | rfl) | rfl) | rfl) | rfl) | rfl) | rfl <;>
        exact absurd h (by decide)

theorem keepChar_X : keepChar 'X' = true := by decide

theorem parseIntDigit_of_digit (c : Char) (h : isDigitChar c = true) :
    parseIntDigit c = some (c.toNat - 48) := by
  unfold parseIntDigit
  rw [if_pos h]

theorem digit_bounds (c : Char) (h : isDigitChar c = true) :
    48 ≤ c.toNat ∧ c.toNat ≤ 57 := by
  simpa [isDigitChar] using h

theorem char_of_digit_val (c : Char) (v : ℕ) (h : isDigitChar c = true)
    (hv : c.toNat - 48 = v) : c = Char.ofNat (48 + v) := by
  have hb := digit_bounds c h
  have : c.toNat = 48 + v := by omega
  rw [← this, Char.ofNat_toNat]

theorem jsNumRender_digit (v : ℕ) (h : v ≤ 9) :
    jsNumRender (some v) = [Char.ofNat (48 + v)] := by
  interval_cases v <;> decide

theorem isDigitChar_ofNat_digit (v : ℕ) (h : v ≤ 9) :
    isDigitChar (Char.ofNat (48 + v)) = true := by
  interval_cases v <;> decide

theorem isbn10CharVal_le (c : Char) (v : ℕ) (h : isbn10CharVal c = some v) : v ≤ 10 := by
  unfold isbn10CharVal at h
  split_ifs at h with h1 h2
  · have hb := digit_bounds c h1
    injection h with h
    omega
  · injection h with h
    omega

theorem isbn10CharVal_inv_digit (c : Char) (v : ℕ) (h : isbn10CharVal c = some v)
    (hv : v ≤ 9) : isDigitChar c = true ∧ c.toNat - 48 = v := by
  unfold isbn10CharVal at h
  split_ifs at h with h1 h2
  · injection h with h
    exact ⟨h1, h⟩
  · injection h with h
    omega

theorem isbn10CharVal_inv_X (c : Char) (h : isbn10CharVal c = some 10) : c = 'X' := by
  unfold isbn10CharVal at h
  split_ifs at h with h1 h2
  · have hb := digit_bounds c h1
    injection h with h
    omega
  · exact h2

theorem keepChar_of_isbn10CharVal (c : Char) (v : ℕ) (h : isbn10CharVal c = some v) :
    keepChar c = true := by
  unfold isbn10CharVal at h
  split_ifs at h with h1 h2
  · exact keepChar_of_digit c h1
  · subst h2
    exact keepChar_X


/-- The check-digit branch of isbn13to10 as a function of the remainder. -/
def isbn10CheckChar (r : ℕ) : List Char :=
  if r = 0 then ['0'] else if r = 1 then ['X'] else jsNumRender (some (11 - r))

theorem isbn13to10_digits (c0 c1 c2 c3 c4 c5 c6 c7 c8 : Char) (d : ℕ) (hdle : d ≤ 9)
    (h0 : isDigitChar c0 = true) (h1 : isDigitChar c1 = true)
    (h2 : isDigitChar c2 = true) (h3 : isDigitChar c3 = true)
    (h4 : isDigitChar c4 = true) (h5 : isDigitChar c5 = true)
    (h6 : isDigitChar c6 = true) (h7 : isDigitChar c7 = true)
    (h8 : isDigitChar c8 = true) :
    isbn13to10 (String.mk ['9', '7', '8', c0, c1, c2, c3, c4, c5, c6, c7, c8,
        Char.ofNat (48 + d)]) =
      some (String.mk ([c0, c1, c2, c3, c4, c5, c6, c7, c8] ++
        isbn10CheckChar ((10 * (c0.toNat - 48) + 9 * (c1.toNat - 48) +
          8 * (c2.toNat - 48) + 7 * (c3.toNat - 48) + 6 * (c4.toNat - 48) +
          5 * (c5.toNat - 48) + 4 * (c6.toNat - 48) + 3 * (c7.toNat - 48) +
          2 * (c8.toNat - 48)) % 11))) := by
  have hclean : stripHyphensSpaces ['9', '7', '8', c0, c1, c2, c3, c4, c5, c6, c7, c8,
      Char.ofNat (48 + d)] = ['9', '7', '8', c0, c1, c2, c3, c4, c5, c6, c7, c8,
      Char.ofNat (48 + d)] := by
    apply List.filter_eq_self.mpr
    intro a ha
    simp only [List.mem_cons, List.not_mem_nil, or_false] at ha
    rcases ha with rfl | rfl | rfl | rfl | rfl | rfl | rfl | rfl | rfl | rfl | rfl | rfl | rfl
    · decide
    · decide
    · decide
    · exact keepChar_of_digit _ h0
    · exact keepChar_of_digit _ h1
    · exact keepChar_of_digit _ h2
    · exact keepChar_of_digit _ h3
    · exact keepChar_of_digit _ h4
    · exact keepChar_of_digit _ h5
    · exact keepChar_of_digit _ h6
    · exact keepChar_of_digit _ h7
    · exact keepChar_of_digit _ h8
    · exact keepChar_of_digit _ (isDigitChar_ofNat_digit d hdle)
  unfold isbn13to10
  simp only [String.toList]
  simp only [hclean]
  simp only [show (decide ((['9', '7', '8', c0, c1, c2, c3, c4, c5, c6, c7, c8,
      Char.ofNat (48 + d)] : List Char).length ≠ 13) ||
      !decide (List.take 3 (['9', '7', '8', c0, c1, c2, c3, c4, c5, c6, c7, c8,
      Char.ofNat (48 + d)] : List Char) = ['9', '7', '8'])) = false from rfl,
    Bool.false_eq_true, if_false]
  rw [show List.take 9 (List.drop 3 ['9', '7', '8', c0, c1, c2, c3, c4, c5, c6, c7, c8,
    Char.ofNat (48 + d)]) = [c0, c1, c2, c3, c4, c5, c6, c7, c8] from rfl]
  simp only [isbn10ChecksumFrom,
    parseIntDigit_of_digit c0 h0, parseIntDigit_of_digit c1 h1,
    parseIntDigit_of_digit c2 h2, parseIntDigit_of_digit c3 h3,
    parseIntDigit_of_digit c4 h4, parseIntDigit_of_digit c5 h5,
    parseIntDigit_of_digit c6 h6, parseIntDigit_of_digit c7 h7,
    parseIntDigit_of_digit c8 h8]
  norm_num [jsAdd, jsMul, jsSub, jsModN, isbn10CheckChar]
  have hsum : (c0.toNat - 48) * 10 + ((c1.toNat - 48) * 9 + ((c2.toNat - 48) * 8 +
      ((c3.toNat - 48) * 7 + ((c4.toNat - 48) * 6 + ((c5.toNat - 48) * 5 +
      ((c6.toNat - 48) * 4 + ((c7.toNat - 48) * 3 + (c8.toNat - 48) * 2))))))) =
      10 * (c0.toNat - 48) + 9 * (c1.toNat - 48) + 8 * (c2.toNat - 48) +
      7 * (c3.toNat - 48) + 6 * (c4.toNat - 48) + 5 * (c5.toNat - 48) +
      4 * (c6.toNat - 48) + 3 * (c7.toNat - 48) + 2 * (c8.toNat - 48) := by
    ring
  simp only [hsum]

/-- Claim C4: for every valid 10-digit ISBN (ten characters, first nine
decimal digits, correct ISBN-10 check digit), converting to ISBN-13 and back
returns the original string. -/
theorem C4_isbn_roundtrip (s : String) (h : isValidIsbn10 s = true) :
    (isbn10to13 s).bind isbn13to10 = some s := by
  unfold isValidIsbn10 at h
  split at h
  next c0 c1 c2 c3 c4 c5 c6 c7 c8 c9 heq =>
    simp only [Bool.and_eq_true] at h
    obtain ⟨⟨⟨⟨⟨⟨⟨⟨⟨hd0, hd1⟩, hd2⟩, hd3⟩, hd4⟩, hd5⟩, hd6⟩, hd7⟩, hd8⟩, hm⟩ := h
    split at hm
    case h_2 => exact absurd hm (by simp)
    case h_1 v hval =>
    rw [decide_eq_true_eq] at hm
    have hclean : stripHyphensSpaces [c0, c1, c2, c3, c4, c5, c6, c7, c8, c9] =
        [c0, c1, c2, c3, c4, c5, c6, c7, c8, c9] := by
      apply List.filter_eq_self.mpr
      intro a ha
      simp only [List.mem_cons, List.not_mem_nil, or_false] at ha
      rcases ha with rfl | rfl | rfl | rfl | rfl | rfl | rfl | rfl | rfl | rfl
      · exact keepChar_of_digit _ hd0
      · exact keepChar_of_digit _ hd1
      · exact keepChar_of_digit _ hd2
      · exact keepChar_of_digit _ hd3
      · exact keepChar_of_digit _ hd4
      · exact keepChar_of_digit _ hd5
      · exact keepChar_of_digit _ hd6
      · exact keepChar_of_digit _ hd7
      · exact keepChar_of_digit _ hd8
      · exact keepChar_of_isbn10CharVal _ _ hval
    unfold isbn10to13
    rw [heq, hclean]
    simp only []
    rw [if_neg (fun hne => hne rfl)]
    rw [show List.take 9 [c0, c1, c2, c3, c4, c5, c6, c7, c8, c9] =
      [c0, c1, c2, c3, c4, c5, c6, c7, c8] from rfl]
    have p9 : parseIntDigit '9' = some 9 := by decide
    have p7 : parseIntDigit '7' = some 7 := by decide
    have p8 : parseIntDigit '8' = some 8 := by decide
    simp only [List.cons_append, List.nil_append, isbn13ChecksumFrom,
      p9, p7, p8,
      parseIntDigit_of_digit c0 hd0, parseIntDigit_of_digit c1 hd1,
      parseIntDigit_of_digit c2 hd2, parseIntDigit_of_digit c3 hd3,
      parseIntDigit_of_digit c4 hd4, parseIntDigit_of_digit c5 hd5,
      parseIntDigit_of_digit c6 hd6, parseIntDigit_of_digit c7 hd7,
      parseIntDigit_of_digit c8 hd8]
    norm_num [jsAdd, jsMul, jsSub, jsModN]
    rw [jsNumRender_digit _ (by omega)]
    rw [isbn13to10_digits c0 c1 c2 c3 c4 c5 c6 c7 c8 _ (by omega)
      hd0 hd1 hd2 hd3 hd4 hd5 hd6 hd7 hd8]
    have hle := isbn10CharVal_le c9 v hval
    set T := 10 * (c0.toNat - 48) + 9 * (c1.toNat - 48) + 8 * (c2.toNat - 48) +
      7 * (c3.toNat - 48) + 6 * (c4.toNat - 48) + 5 * (c5.toNat - 48) +
      4 * (c6.toNat - 48) + 3 * (c7.toNat - 48) + 2 * (c8.toNat - 48) with hT
    by_cases hr0 : T % 11 = 0
    · have hv0 : v = 0 := by omega
      obtain ⟨hdig, hvv⟩ := isbn10CharVal_inv_digit c9 v hval (by omega)
      have hc9 : c9 = '0' := by
        rw [char_of_digit_val c9 v hdig hvv, hv0]
      simp only [isbn10CheckChar, if_pos hr0]
      rw [show ([c0, c1, c2, c3, c4, c5, c6, c7, c8] : List Char) ++ ['0'] =
        [c0, c1, c2, c3, c4, c5, c6, c7, c8, '0'] from rfl]
      rw [← hc9, ← heq]
      rfl
    · by_cases hr1 : T % 11 = 1
      · have hv : v = 10 := by omega
        rw [hv] at hval
        have hc9 : c9 = 'X' := isbn10CharVal_inv_X c9 hval
        simp only [isbn10CheckChar, if_neg hr0, if_pos hr1]
        rw [show ([c0, c1, c2, c3, c4, c5, c6, c7, c8] : List Char) ++ ['X'] =
          [c0, c1, c2, c3, c4, c5, c6, c7, c8, 'X'] from rfl]
        rw [← hc9, ← heq]
        rfl
      · have hrlt : T % 11 < 11 := Nat.mod_lt _ (by norm_num)
        have hv : v = 11 - T % 11 := by omega
        have hvle : v ≤ 9 := by omega
        obtain ⟨hdig, hvv⟩ := isbn10CharVal_inv_digit c9 v hval hvle
        have hc9 : c9 = Char.ofNat (48 + v) := char_of_digit_val c9 v hdig hvv
        simp only [isbn10CheckChar, if_neg hr0, if_neg hr1]
        rw [jsNumRender_digit _ (by omega)]
        rw [show 48 + (11 - T % 11) = 48 + v from by omega]
        rw [show ([c0, c1, c2, c3, c4, c5, c6, c7, c8] : List Char) ++ [Char.ofNat (48 + v)] =
          [c0, c1, c2, c3, c4, c5, c6, c7, c8, Char.ofNat (48 + v)] from rfl]
        rw [← hc9, ← heq]
        rfl
  next => exact absurd h (by simp)


theorem C4_isbn_roundtrip_witness :
    isValidIsbn10 "0306406152" = true ∧
    (isbn10to13 "0306406152").bind isbn13to10 = some "0306406152" :=
  ⟨by decide, C4_isbn_roundtrip "0306406152" (by decide)⟩

theorem C3_makeDecision_scoring_witness :
    makeDecision 1000 50 (some 50000) (some 5) 0 false =
      (if specScoreAmended 1000 50 (some 50000) (some 5) 0 ≥ 70 then
        (⟨Decision.BUY, "Strong opportunity",
          specScoreAmended 1000 50 (some 50000) (some 5) 0⟩ : DecisionResult)
       else if specScoreAmended 1000 50 (some 50000) (some 5) 0 ≥ 50 then
        ⟨Decision.REVIEW, "Needs review",
          specScoreAmended 1000 50 (some 50000) (some 5) 0⟩
       else
        ⟨Decision.REJECT, "Below threshold",
          specScoreAmended 1000 50 (some 50000) (some 5) 0⟩) :=
  C3_makeDecision_scoring.1 1000 50 (some 50000) (some 5) 0 (by norm_num) (by norm_num)
    (by
      intro r hr
      injection hr with hr
      omega)
    (by
      intro d hd
      injection hd with hd
      omega)

/-! ## ISBN extraction from a listing (ebayApi.ts, extractISBN)

Only the fields extractISBN reads are modelled: the explicit isbn list, the
gtin, the localized aspects (name/value pairs plus their type tag) and the
title.  JS truthiness: a missing field is none; an empty string gtin is falsy
and skipped; an array (even empty) is truthy. -/

structure LocalizedAspect where
  type : String
  name : String
  value : String
  deriving DecidableEq, Repr

structure EbayItemFields where
  title : String
  isbn : Option (List String)
  gtin : Option String
  localizedAspects : Option (List LocalizedAspect)
  deriving DecidableEq, Repr

/-- Char.toLower on every character, as String.prototype.toLowerCase does for
the ASCII names occurring here. -/
def toLowerString (s : String) : String := String.map Char.toLower s

def startsWithChars : List Char → List Char → Bool
  | [], _ => true
  | _ :: _, [] => false
  | a :: as, b :: bs => a = b && startsWithChars as bs

/-- String.prototype.includes on character lists. -/
def containsSub (needle : List Char) : List Char → Bool
  | [] => needle.isEmpty
  | c :: rest => startsWithChars needle (c :: rest) || containsSub needle rest

/-- Word characters of the JS regex: ASCII letters, digits and underscore. -/
def isWordChar (c : Char) : Bool := c.isAlpha || c.isDigit || c = '_'

/-- Does a word-boundary digit run of exactly n digits start here?  Requires n
digits followed by a non-word character or the end of the string. -/
def digitRunAt (l : List Char) (n : ℕ) : Bool :=
  decide (n ≤ l.length) && (l.take n).all isDigitChar &&
    (match l.drop n with
     | [] => true
     | c :: _ => !isWordChar c)

/-- Leftmost match of the title regex: at each position whose preceding
character is not a word character, try a 10-digit run first, then a 13-digit
run (matching the order of the alternation), else advance. -/
def scanTitle (prev : Option Char) (l : List Char) : Option (List Char) :=
  match l with
  | [] => none
  | c :: rest =>
    let boundaryOk := match prev with
      | none => true
      | some p => !isWordChar p
    if boundaryOk && digitRunAt (c :: rest) 10 then some ((c :: rest).take 10)
    else if boundaryOk && digitRunAt (c :: rest) 13 then some ((c :: rest).take 13)
    else scanTitle (some c) rest

/-- title.match of the standalone 10-or-13-digit-number regex, first group. -/
def titleIsbnMatch (title : String) : Option String :=
  (scanTitle none title.toList).map String.mk

/-- The aspect-name test: name.toLowerCase().includes of the string isbn. -/
def aspectNameHasIsbn (a : LocalizedAspect) : Bool :=
  containsSub "isbn".toList (toLowerString a.name).toList

def extractISBN (item : EbayItemFields) : Option String :=
  let fromAspects : Option String :=
    match item.localizedAspects with
    | some aspects =>
      match aspects.find? aspectNameHasIsbn with
      | some a => some a.value
      | none => none
    | none => none
  let fromTitle : Option String := titleIsbnMatch item.title
  let tail3 : Option String :=
    match fromAspects with
    | some v => some v
    | none => fromTitle
  let tail2 : Option String :=
    match item.gtin with
    | some g =>
      if g ≠ "" then
        let cleanGtin := stripHyphensSpaces g.toList
        if cleanGtin.length = 10 ∨ cleanGtin.length = 13 then some (String.mk cleanGtin)
        else tail3
      else tail3
    | none => tail3
  match item.isbn with
  | some (x :: _) => some x
  | _ => tail2

/-- Claim C8: extractISBN applies its four rules in order, first match wins:
explicit isbn field head, then gtin with cleaned length 10 or 13, then the
first localized aspect whose lowercased name contains isbn, then the first
standalone 10- or 13-digit number of the title, else null; an explicit isbn
field beats a conflicting title digit string. -/
theorem C8_extractISBN_rules (item : EbayItemFields) :
    (∀ x rest, item.isbn = some (x :: rest) → extractISBN item = some x) ∧
    ((item.isbn = none ∨ item.isbn = some []) →
      ∀ g, item.gtin = some g →
      ((stripHyphensSpaces g.toList).length = 10 ∨
        (stripHyphensSpaces g.toList).length = 13) →
      extractISBN item = some (String.mk (stripHyphensSpaces g.toList))) ∧
    ((item.isbn = none ∨ item.isbn = some []) →
      (∀ g, item.gtin = some g →
        ¬((stripHyphensSpaces g.toList).length = 10 ∨
          (stripHyphensSpaces g.toList).length = 13)) →
      ∀ aspects a, item.localizedAspects = some aspects →
      aspects.find? aspectNameHasIsbn = some a →
      extractISBN item = some a.value) ∧
    ((item.isbn = none ∨ item.isbn = some []) →
      (∀ g, item.gtin = some g →
        ¬((stripHyphensSpaces g.toList).length = 10 ∨
          (stripHyphensSpaces g.toList).length = 13)) →
      (∀ aspects, item.localizedAspects = some aspects →
        aspects.find? aspectNameHasIsbn = none) →
      extractISBN item = titleIsbnMatch item.title) ∧
    extractISBN ⟨"Book 9999999999999", some ["0306406152"], none, none⟩ =
      some "0306406152" ∧
    titleIsbnMatch "Book 9999999999999" = some "9999999999999" ∧
    titleIsbnMatch "ISBN0306406152 hardcover" = none ∧
    titleIsbnMatch "lot 123456789012345 x" = none := by
  have hgtinTail : ∀ g, (stripHyphensSpaces g.toList).length = 10 ∨
      (stripHyphensSpaces g.toList).length = 13 → g ≠ "" := by
    intro g hlen hg
    subst hg
    simp [stripHyphensSpaces] at hlen
  refine ⟨?_, ?_, ?_, ?_, ?_, ?_, ?_, ?_⟩
  · intro x rest h
    simp [extractISBN, h]
  · intro hisbn g hg hlen
    have hne := hgtinTail g hlen
    rcases hisbn with h | h <;>
      simp [extractISBN, h, hg, hne, if_pos hlen] <;>
      (intro h10 h13
       rcases hlen with hl | hl
       · exact absurd hl h10
       · exact absurd hl h13)
  · intro hisbn hgt aspects a hla hfind
    rcases hisbn with h | h <;> rcases hgg : item.gtin with _ | g
    · simp [extractISBN, h, hgg, hla, hfind]
    · by_cases hge : g = ""
      · subst hge
        simp [extractISBN, h, hgg, hla, hfind]
      · simp [extractISBN, h, hgg, hla, hfind, hge, hgt g hgg]
        intro hl
        exact absurd hl (hgt g hgg)
    · simp [extractISBN, h, hgg, hla, hfind]
    · by_cases hge : g = ""
      · subst hge
        simp [extractISBN, h, hgg, hla, hfind]
      · simp [extractISBN, h, hgg, hla, hfind, hge, hgt g hgg]
        intro hl
        exact absurd hl (hgt g hgg)
  · intro hisbn hgt hasp
    have haspTail : (match item.localizedAspects with
        | some aspects =>
          (match aspects.find? aspectNameHasIsbn with
            | some a => some a.value
            | none => none)
        | none => none) = (none : Option String) := by
      rcases hla2 : item.localizedAspects with _ | aspects2
      · rfl
      · simp [hasp aspects2 hla2]
    rcases hisbn with h | h <;> rcases hgg : item.gtin with _ | g
    · simp [extractISBN, h, hgg, haspTail]
    · by_cases hge : g = ""
      · subst hge
        simp [extractISBN, h, hgg, haspTail]
      · simp [extractISBN, h, hgg, haspTail, hge, hgt g hgg]
        intro hl
        exact absurd hl (hgt g hgg)
    · simp [extractISBN, h, hgg, haspTail]
    · by_cases hge : g = ""
      · subst hge
        simp [extractISBN, h, hgg, haspTail]
      · simp [extractISBN, h, hgg, haspTail, hge, hgt g hgg]
        intro hl
        exact absurd hl (hgt g hgg)
  · decide
  · decide
  · decide
  · decide

theorem C8_extractISBN_rules_witness :
    extractISBN ⟨"t", some ["0306406152", "junk"], some "111", none⟩ =
      some "0306406152" :=
  (C8_extractISBN_rules ⟨"t", some ["0306406152", "junk"], some "111", none⟩).1
    "0306406152" ["junk"] rfl

/-! ## Keepa product record normalization (keepaApi.ts, parseKeepaProduct)

The raw payload is sparse: per-metric time series (alternating timestamp and
value entries) plus precomputed stat snapshots; any field may be absent.  The
csv array may hold null in place of a series.  Date.now() is passed in as an
argument (now), and the local-timezone calendar-day decomposition used by the
days-with-sales set is passed in as an abstract day-key function, since it
depends on the runtime timezone. -/

structure KeepaStats where
  current : Option (List ℤ)
  avg30 : Option (List ℤ)
  avg90 : Option (List ℤ)
  salesRankDrops90 : Option ℤ
  salesRankDrops30 : Option ℤ
  buyBoxPrice : Option ℤ
  offerCountNew : Option ℤ
  offerCountUsed : Option ℤ
  offerCountFBA : Option ℤ
  outOfStockPercentage90 : Option ℚ
  deriving Repr

structure KeepaProductRaw where
  asin : String
  title : Option String
  csv : Option (List (Option (List ℤ)))
  stats : Option KeepaStats
  imagesCSV : Option String
  categoryTree : Option (List (ℤ × String))
  lastUpdate : Option ℤ
  deriving Repr

structure KeepaProduct where
  asin : String
  title : String
  salesRank : Option ℤ
  amazonPrice : Option ℤ
  newPrice : Option ℤ
  usedPrice : Option ℤ
  newFbaPrice : Option ℤ
  buyBoxPrice : Option ℤ
  newOfferCount : ℤ
  usedOfferCount : ℤ
  fbaOfferCount : ℤ
  rating : Option ℤ
  reviewCount : ℤ
  salesRank30DayAvg : Option ℤ
  salesRank90DayAvg : Option ℤ
  salesRankDrops30 : Option ℤ
  salesRankDrops90 : Option ℤ
  daysWithSales30 : ℕ
  daysWithSales90 : ℕ
  avgPrice90 : Option ℤ
  outOfStockPercentage90 : Option ℚ
  imageUrl : Option String
  category : Option String
  isAmazon : Bool
  lastUpdate : ℤ
  deriving Repr

/-- Indexing csv[i]: out of range gives undefined, a null entry stays null. -/
def csvGet (csv : List (Option (List ℤ))) (i : ℕ) : Option (List ℤ) :=
  (csv.get? i).bind id

/-- Last entry of a metric series; series absent, shorter than 2, or ending in
a negative value give null. -/
def getLatestValue (csv : Option (List ℤ)) : Option ℤ :=
  match csv with
  | none => none
  | some l =>
    if l.length < 2 then none
    else
      let value := l.getLastD 0
      if value < 0 then none else some value

/-- Negative (or absent) Keepa prices mean no data. -/
def keepaPriceToCents (price : Option ℤ) : Option ℤ :=
  match price with
  | none => none
  | some p => if p < 0 then none else some p

/-- The for-loop of calculateDaysWithSales walks (timestamp, rank) pairs, two
csv entries at a time; a trailing unpaired entry is ignored. -/
def csvPairs : List ℤ → List (ℤ × ℤ)
  | a :: b :: rest => (a, b) :: csvPairs rest
  | _ => []

/-- Adding a day key to the Set of days that saw a rank drop. -/
def insertDay (acc : List ℤ) (d : ℤ) : List ℤ :=
  if d ∈ acc then acc else acc ++ [d]

def daysWithSalesLoop (dayKey : ℤ → ℤ) (cutoff : ℤ) :
    List (ℤ × ℤ) → Option ℤ → List ℤ → List ℤ
  | [], _, acc => acc
  | (kt, rank) :: rest, prevRank, acc =>
    let ts := (kt + 21564000) * 60000
    if ts < cutoff then
      daysWithSalesLoop dayKey cutoff rest (if rank > 0 then some rank else none) acc
    else if rank < 0 then
      daysWithSalesLoop dayKey cutoff rest prevRank acc
    else
      let acc2 :=
        match prevRank with
        | some p => if rank < p then insertDay acc (dayKey ts) else acc
        | none => acc
      daysWithSalesLoop dayKey cutoff rest (some rank) acc2

def calculateDaysWithSales (dayKey : ℤ → ℤ) (now : ℤ)
    (rankCsv : Option (List ℤ)) (days : ℤ) : ℕ :=
  match rankCsv with
  | none => 0
  | some l =>
    if l.length < 4 then 0
    else (daysWithSalesLoop dayKey (now - days * 86400000) (csvPairs l) none []).length

def parseKeepaProduct (dayKey : ℤ → ℤ) (now : ℤ) (raw : KeepaProductRaw) : KeepaProduct :=
  let csv := raw.csv.getD []
  let stats := raw.stats
  let currentStats := (stats.bind (fun st => st.current)).getD []
  let salesRank := getLatestValue (csvGet csv 3)
  let salesRank30DayAvg := (stats.bind (fun st => st.avg30)).bind (fun l => l.get? 3)
  let salesRank90DayAvg := (stats.bind (fun st => st.avg90)).bind (fun l => l.get? 3)
  let amazonPrice := keepaPriceToCents
    ((currentStats.get? 0).orElse (fun _ => getLatestValue (csvGet csv 0)))
  let newPrice := keepaPriceToCents
    ((currentStats.get? 1).orElse (fun _ => getLatestValue (csvGet csv 1)))
  let usedPrice := keepaPriceToCents
    ((currentStats.get? 2).orElse (fun _ => getLatestValue (csvGet csv 2)))
  let newFbaPrice := keepaPriceToCents
    ((currentStats.get? 7).orElse (fun _ => getLatestValue (csvGet csv 7)))
  let rawBuyBoxPrice := stats.bind (fun st => st.buyBoxPrice)
  let buyBoxPrice :=
    match rawBuyBoxPrice with
    | some v => if v > 0 then some v else none
    | none => none
  let newOfferCount :=
    ((stats.bind (fun st => st.offerCountNew)).orElse
      (fun _ => currentStats.get? 11)).getD 0
  let usedOfferCount :=
    ((stats.bind (fun st => st.offerCountUsed)).orElse
      (fun _ => currentStats.get? 12)).getD 0
  let fbaOfferCount :=
    ((stats.bind (fun st => st.offerCountFBA)).orElse
      (fun _ => currentStats.get? 28)).getD 0
  let rating := (currentStats.get? 16).orElse (fun _ => getLatestValue (csvGet csv 16))
  let reviewCount :=
    ((currentStats.get? 17).orElse (fun _ => getLatestValue (csvGet csv 17))).getD 0
  let imageUrl :=
    match raw.imagesCSV with
    | some sImg =>
      if sImg ≠ "" then
        some ("https://images-na.ssl-images-amazon.com/images/I/" ++
          (sImg.splitOn ",").headD "")
      else none
    | none => none
  let category :=
    match raw.categoryTree with
    | some l => if l.length > 0 then some (l.getLastD (0, "")).2 else none
    | none => none
  let salesRankDrops90 := stats.bind (fun st => st.salesRankDrops90)
  let salesRankDrops30 :=
    (stats.bind (fun st => st.salesRankDrops30)).orElse (fun _ =>
      match salesRankDrops90 with
      | some d90 => some (jsRoundRat d90 3)
      | none => none)
  let rankCsv := csvGet csv 3
  let daysWithSales30 := calculateDaysWithSales dayKey now rankCsv 30
  let daysWithSales90 := calculateDaysWithSales dayKey now rankCsv 90
  let avgPrice90 := keepaPriceToCents ((stats.bind (fun st => st.avg90)).bind (fun l => l.get? 1))
  let rawOos := stats.bind (fun st => st.outOfStockPercentage90)
  let outOfStockPercentage90 :=
    match rawOos with
    | some q => if 0 ≤ q ∧ q ≤ 100 then some q else none
    | none => none
  { asin := raw.asin
    title := raw.title.getD ""
    salesRank := salesRank
    amazonPrice := amazonPrice
    newPrice := newPrice
    usedPrice := usedPrice
    newFbaPrice := newFbaPrice
    buyBoxPrice := buyBoxPrice
    newOfferCount := jsMax 0 newOfferCount
    usedOfferCount := jsMax 0 usedOfferCount
    fbaOfferCount := jsMax 0 fbaOfferCount
    rating :=
      match rating with
      | some r => if r ≥ 0 then some r else none
      | none => none
    reviewCount := jsMax 0 reviewCount
    salesRank30DayAvg := salesRank30DayAvg
    salesRank90DayAvg := salesRank90DayAvg
    salesRankDrops30 := salesRankDrops30
    salesRankDrops90 := salesRankDrops90
    daysWithSales30 := daysWithSales30
    daysWithSales90 := daysWithSales90
    avgPrice90 := avgPrice90
    outOfStockPercentage90 := outOfStockPercentage90
    imageUrl := imageUrl
    category := category
    isAmazon :=
      match amazonPrice with
      | some p => decide (p > 0)
      | none => false
    lastUpdate := raw.lastUpdate.getD 0 }

theorem jsMax_zero_nonneg (x : ℤ) : 0 ≤ jsMax 0 x := by
  unfold jsMax
  split_ifs <;> omega

theorem getLatestValue_nonneg (o : Option (List ℤ)) (v : ℤ)
    (h : getLatestValue o = some v) : 0 ≤ v := by
  rcases o with _ | l
  · simp [getLatestValue] at h
  · simp only [getLatestValue] at h
    split_ifs at h with h1 h2
    simp at h h2
    omega

theorem keepaPriceToCents_nonneg (o : Option ℤ) (v : ℤ)
    (h : keepaPriceToCents o = some v) : 0 ≤ v := by
  rcases o with _ | p
  · simp [keepaPriceToCents] at h
  · simp only [keepaPriceToCents] at h
    split_ifs at h with h1
    simp at h
    omega

/-- Claim C9: every record produced by parseKeepaProduct has nonnegative
offer and review counts, a buy-box price that is null or strictly positive,
prices, sales rank and rating that are null rather than negative, and an
out-of-stock percentage that is null or within 0..100. -/
theorem C9_parseKeepaProduct_invariants (dayKey : ℤ → ℤ) (now : ℤ)
    (raw : KeepaProductRaw) :
    0 ≤ (parseKeepaProduct dayKey now raw).newOfferCount ∧
    0 ≤ (parseKeepaProduct dayKey now raw).usedOfferCount ∧
    0 ≤ (parseKeepaProduct dayKey now raw).fbaOfferCount ∧
    0 ≤ (parseKeepaProduct dayKey now raw).reviewCount ∧
    (∀ v, (parseKeepaProduct dayKey now raw).buyBoxPrice = some v → 0 < v) ∧
    (∀ v, (parseKeepaProduct dayKey now raw).salesRank = some v → 0 ≤ v) ∧
    (∀ v, (parseKeepaProduct dayKey now raw).amazonPrice = some v → 0 ≤ v) ∧
    (∀ v, (parseKeepaProduct dayKey now raw).newPrice = some v → 0 ≤ v) ∧
    (∀ v, (parseKeepaProduct dayKey now raw).usedPrice = some v → 0 ≤ v) ∧
    (∀ v, (parseKeepaProduct dayKey now raw).newFbaPrice = some v → 0 ≤ v) ∧
    (∀ v, (parseKeepaProduct dayKey now raw).avgPrice90 = some v → 0 ≤ v) ∧
    (∀ v, (parseKeepaProduct dayKey now raw).rating = some v → 0 ≤ v) ∧
    (∀ q, (parseKeepaProduct dayKey now raw).outOfStockPercentage90 = some q →
      0 ≤ q ∧ q ≤ 100) := by
  simp only [parseKeepaProduct]
  refine ⟨jsMax_zero_nonneg _, jsMax_zero_nonneg _, jsMax_zero_nonneg _,
    jsMax_zero_nonneg _, ?_, ?_, ?_, ?_, ?_, ?_, ?_, ?_, ?_⟩
  · intro v hv
    rcases hbb : (raw.stats.bind (fun st => st.buyBoxPrice)) with _ | w <;>
      simp [hbb] at hv
    omega
  · intro v hv
    exact getLatestValue_nonneg _ v hv
  · intro v hv
    exact keepaPriceToCents_nonneg _ v hv
  · intro v hv
    exact keepaPriceToCents_nonneg _ v hv
  · intro v hv
    exact keepaPriceToCents_nonneg _ v hv
  · intro v hv
    exact keepaPriceToCents_nonneg _ v hv
  · intro v hv
    exact keepaPriceToCents_nonneg _ v hv
  · intro v hv
    rcases hr : ((((raw.stats.bind fun st => st.current).getD [])[16]?).orElse
        (fun x => getLatestValue (csvGet (raw.csv.getD []) 16))) with _ | r <;>
      simp [hr] at hv
    omega
  · intro q hq
    rcases ho : (raw.stats.bind (fun st => st.outOfStockPercentage90)) with _ | w <;>
      simp [ho] at hq
    obtain ⟨⟨h0, h100⟩, rfl⟩ := hq
    exact ⟨h0, h100⟩

/-- A concrete raw payload used to instantiate the invariants. -/
def rawExample : KeepaProductRaw :=
  { asin := "B000"
    title := some "t"
    csv := none
    stats := some
      { current := none
        avg30 := none
        avg90 := none
        salesRankDrops90 := some 12
        salesRankDrops30 := some 5
        buyBoxPrice := some 500
        offerCountNew := some (-3)
        offerCountUsed := none
        offerCountFBA := none
        outOfStockPercentage90 := some (50 : ℚ) }
    imagesCSV := none
    categoryTree := none
    lastUpdate := none }

theorem C9_parseKeepaProduct_invariants_witness :
    (0 : ℤ) < 500 ∧
    0 ≤ (parseKeepaProduct (fun t => t) 0 rawExample).newOfferCount :=
  ⟨(C9_parseKeepaProduct_invariants (fun t => t) 0 rawExample).2.2.2.2.1 500 rfl,
    (C9_parseKeepaProduct_invariants (fun t => t) 0 rawExample).1⟩

/-! ## Retrying fetch wrapper (ebayApi.ts, fetchWithRetry)

The transport is a function from the attempt index to that attempt's outcome:
an HTTP response carrying a status and an optional Retry-After header, or a
network-level failure.  The for-loop over attempt = 0..maxRetries is embedded
as structural recursion over the list of remaining attempt indices.  Waits
are collected so the backoff behavior is part of the result. -/

inductive FetchOutcome where
  | resp (status : ℕ) (retryAfter : Option String)
  | netErr (msg : String)
  deriving DecidableEq, Repr

inductive FetchError where
  | rateLimited
  | serverError (status : ℕ)
  | transport (msg : String)
  | exhausted
  deriving DecidableEq, Repr

structure FetchResult where
  outcome : Except FetchError (ℕ × ℕ)
  waits : List ℤ
  attempts : ℕ
  deriving Repr

def RATE_LIMIT_maxRetries : ℕ := 2
def RATE_LIMIT_initialDelayMs : ℤ := 1000
def RATE_LIMIT_maxDelayMs : ℤ := 30000
def RATE_LIMIT_backoffMultiplier : ℤ := 2

/-- parseInt(s, 10): skip leading whitespace, optional sign, then leading
decimal digits; NaN (none) when no digit follows. -/
def jsParseIntDigits (l : List Char) : Option ℕ :=
  let ds := l.takeWhile isDigitChar
  if ds.isEmpty then none
  else some (ds.foldl (fun acc c => 10 * acc + (c.toNat - 48)) 0)

def jsParseInt (s : String) : Option ℤ :=
  match s.toList.dropWhile isJsWhitespace with
  | '-' :: rest => (jsParseIntDigits rest).map (fun n => -(n : ℤ))
  | '+' :: rest => (jsParseIntDigits rest).map (fun n => (n : ℤ))
  | rest => (jsParseIntDigits rest).map (fun n => (n : ℤ))

def fetchWithRetryGo (t : ℕ → FetchOutcome) :
    List ℕ → ℤ → Option String → List ℤ → FetchResult
  | [], _, lastError, waits =>
    ⟨.error (match lastError with
      | some m => .transport m
      | none => .exhausted), waits, RATE_LIMIT_maxRetries + 1⟩
  | attempt :: rest, delay, lastError, waits =>
    match t attempt with
    | .resp status ra =>
      if status = 429 then
        if attempt = RATE_LIMIT_maxRetries then
          ⟨.error .rateLimited, waits, attempt + 1⟩
        else
          let waitTime :=
            match ra with
            | some hdr =>
              match jsParseInt hdr with
              | some secs => secs * 1000
              | none => delay
            | none => delay
          let waitTime := jsMin waitTime RATE_LIMIT_maxDelayMs
          fetchWithRetryGo t rest
            (jsMin (delay * RATE_LIMIT_backoffMultiplier) RATE_LIMIT_maxDelayMs)
            lastError (waits ++ [waitTime])
      else if 500 ≤ status ∧ status < 600 then
        if attempt = RATE_LIMIT_maxRetries then
          ⟨.error (.serverError status), waits, attempt + 1⟩
        else
          fetchWithRetryGo t rest
            (jsMin (delay * RATE_LIMIT_backoffMultiplier) RATE_LIMIT_maxDelayMs)
            lastError (waits ++ [delay])
      else ⟨.ok (attempt, status), waits, attempt + 1⟩
    | .netErr m =>
      if attempt < RATE_LIMIT_maxRetries then
        fetchWithRetryGo t rest
          (jsMin (delay * RATE_LIMIT_backoffMultiplier) RATE_LIMIT_maxDelayMs)
          (some m) (waits ++ [delay])
      else
        ⟨.error (.transport m), waits, attempt + 1⟩

def fetchWithRetry (t : ℕ → FetchOutcome) : FetchResult :=
  fetchWithRetryGo t (List.range (RATE_LIMIT_maxRetries + 1))
    RATE_LIMIT_initialDelayMs none []

/-- Outcomes the wrapper retries on: 429, any 5xx, or a network failure. -/
def retryableB : FetchOutcome → Bool
  | .resp s _ => (s == 429) || (decide (500 ≤ s) && decide (s < 600))
  | .netErr _ => true

/-- Claim-side wait for one retry (amended claim): on 429 the Retry-After
header in seconds when parseable, else the current backoff delay, the whole
wait capped at 30000 ms; on 5xx and network failure the backoff delay. -/
def claimWaitFor : FetchOutcome → ℤ → ℤ
  | .resp 429 ra, delay =>
    jsMin
      (match ra with
       | some hdr =>
         match jsParseInt hdr with
         | some secs => secs * 1000
         | none => delay
       | none => delay) 30000
  | .resp _ _, delay => delay
  | .netErr _, delay => delay

/-- Claim-side result of a non-retried attempt: the response passes through. -/
def claimFinish : FetchOutcome → ℕ → List ℤ → FetchResult
  | .resp s _, i, ws => ⟨.ok (i, s), ws, i + 1⟩
  | .netErr m, i, ws => ⟨.error (.transport m), ws, i + 1⟩

/-- Claim-side failure when the final attempt is still retryable. -/
def claimFinalError : FetchOutcome → FetchError
  | .resp 429 _ => .rateLimited
  | .resp s _ => .serverError s
  | .netErr m => .transport m

/-- The amended claim C7 as a closed-form three-attempt case tree: a
non-retryable response returns immediately; otherwise wait (1000 then 2000 ms
backoff, Retry-After honored on 429 and capped at 30000) and retry, at most
twice; a retryable outcome on the third attempt raises the rate-limit,
server-error or transport failure. -/
def claimFetchResult (t : ℕ → FetchOutcome) : FetchResult :=
  if retryableB (t 0) = false then claimFinish (t 0) 0 []
  else
    let w0 := claimWaitFor (t 0) 1000
    if retryableB (t 1) = false then claimFinish (t 1) 1 [w0]
    else
      let w1 := claimWaitFor (t 1) 2000
      if retryableB (t 2) = false then claimFinish (t 2) 2 [w0, w1]
      else ⟨.error (claimFinalError (t 2)), [w0, w1], 3⟩

theorem fetchWithRetryGo_step (t : ℕ → FetchOutcome) (a : ℕ) (rest : List ℕ)
    (delay : ℤ) (le : Option String) (ws : List ℤ)
    (hale : a ≤ RATE_LIMIT_maxRetries) :
    fetchWithRetryGo t (a :: rest) delay le ws =
      (if retryableB (t a) = false then claimFinish (t a) a ws
       else if a = RATE_LIMIT_maxRetries then
        ⟨.error (claimFinalError (t a)), ws, a + 1⟩
       else
        fetchWithRetryGo t rest (jsMin (delay * 2) RATE_LIMIT_maxDelayMs)
          (match t a with
           | .netErr m => some m
           | .resp _ _ => le)
          (ws ++ [claimWaitFor (t a) delay])) := by
  have hmax : RATE_LIMIT_maxRetries = 2 := rfl
  rcases h : t a with ⟨s, ra⟩ | m
  · by_cases h429 : s = 429
    · subst h429
      by_cases ha : a = RATE_LIMIT_maxRetries
      · subst ha
        simp [fetchWithRetryGo, h, retryableB, claimFinalError]
      · simp [fetchWithRetryGo, h, retryableB, claimWaitFor, ha,
          RATE_LIMIT_backoffMultiplier, RATE_LIMIT_maxDelayMs]
    · by_cases h5 : 500 ≤ s ∧ s < 600
      · by_cases ha : a = RATE_LIMIT_maxRetries
        · subst ha
          simp [fetchWithRetryGo, h, retryableB, claimFinalError, h429, h5, h5.1, h5.2]
        · simp [fetchWithRetryGo, h, retryableB, claimWaitFor, ha, h429, h5, h5.1, h5.2,
            RATE_LIMIT_backoffMultiplier, RATE_LIMIT_maxDelayMs]
      · have hr : retryableB (FetchOutcome.resp s ra) = false := by
          simp [retryableB, h429]
          omega
        simp [fetchWithRetryGo, h, hr, claimFinish, h429, h5]
  · by_cases ha : a < RATE_LIMIT_maxRetries
    · simp [fetchWithRetryGo, h, retryableB, claimWaitFor, ha,
        show ¬(a = RATE_LIMIT_maxRetries) from by omega,
        RATE_LIMIT_backoffMultiplier, RATE_LIMIT_maxDelayMs]
    · have ha2 : a = RATE_LIMIT_maxRetries := by omega
      subst ha2
      simp [fetchWithRetryGo, h, retryableB, claimFinalError,
        show ¬(RATE_LIMIT_maxRetries < RATE_LIMIT_maxRetries) from by omega]

/-- A transport answering 429 with Retry-After 60 seconds, then 200. -/
def tRetryAfter60 : ℕ → FetchOutcome :=
  fun n => if n = 0 then .resp 429 (some "60") else .resp 200 none

/-- Claim C7 counterexample: with Retry-After 60 the claim says the wrapper
waits 60000 ms, but the code caps the Retry-After wait at maxDelayMs and
waits 30000 ms. -/
theorem C7_counterexample :
    (fetchWithRetry tRetryAfter60).waits = [30000] ∧ (30000 : ℤ) ≠ 60 * 1000 := by
  constructor
  · rfl
  · decide

theorem claimFinish_attempts (o : FetchOutcome) (i : ℕ) (ws : List ℤ) :
    (claimFinish o i ws).attempts = i + 1 := by
  rcases o <;> rfl

/-- Claim C7 (amended): fetchWithRetry makes at most 1 + maxRetries = 3
attempts and behaves exactly as the three-attempt case tree claimFetchResult:
non-429/5xx responses return immediately; 429 waits min(Retry-After seconds
in ms when parseable, else the backoff delay, capped at 30000); 5xx and
network failures wait the backoff delay (1000 then 2000 ms); a retryable
outcome on the third attempt raises the corresponding failure instead of
retrying; success on the second attempt ends the call with two attempts. -/
theorem C7_fetchWithRetry_amended :
    (∀ t, fetchWithRetry t = claimFetchResult t) ∧
    (∀ t, (fetchWithRetry t).attempts ≤ 1 + RATE_LIMIT_maxRetries) ∧
    (∀ t s ra, retryableB (t 0) = true → t 1 = .resp s ra → ¬s = 429 →
      ¬(500 ≤ s ∧ s < 600) →
      fetchWithRetry t = ⟨.ok (1, s), [claimWaitFor (t 0) 1000], 2⟩) := by
  have hequiv : ∀ t, fetchWithRetry t = claimFetchResult t := by
    intro t
    unfold fetchWithRetry claimFetchResult
    rw [show List.range (RATE_LIMIT_maxRetries + 1) = [0, 1, 2] from rfl]
    rw [fetchWithRetryGo_step t 0 _ _ _ _ (by decide)]
    by_cases h0 : retryableB (t 0) = false
    · simp [h0]
    · rw [if_neg h0, if_neg h0]
      rw [if_neg (show ¬((0 : ℕ) = RATE_LIMIT_maxRetries) from by decide)]
      rw [fetchWithRetryGo_step t 1 _ _ _ _ (by decide)]
      simp only [show RATE_LIMIT_initialDelayMs = (1000 : ℤ) from rfl]
      rw [show jsMin ((1000 : ℤ) * 2) RATE_LIMIT_maxDelayMs = 2000 from rfl]
      rw [show ([] : List ℤ) ++ [claimWaitFor (t 0) 1000] = [claimWaitFor (t 0) 1000]
        from rfl]
      by_cases h1 : retryableB (t 1) = false
      · simp [h1]
      · rw [if_neg h1, if_neg h1]
        rw [if_neg (show ¬((1 : ℕ) = RATE_LIMIT_maxRetries) from by decide)]
        rw [fetchWithRetryGo_step t 2 _ _ _ _ (by decide)]
        rw [show jsMin ((2000 : ℤ) * 2) RATE_LIMIT_maxDelayMs = 4000 from rfl]
        rw [show [claimWaitFor (t 0) 1000] ++ [claimWaitFor (t 1) 2000] =
          [claimWaitFor (t 0) 1000, claimWaitFor (t 1) 2000] from rfl]
        by_cases h2 : retryableB (t 2) = false
        · simp [h2]
        · rw [if_neg h2, if_neg h2]
          rw [if_pos (show (2 : ℕ) = RATE_LIMIT_maxRetries from rfl)]
  refine ⟨hequiv, ?_, ?_⟩
  · intro t
    rw [hequiv]
    unfold claimFetchResult
    split_ifs <;> simp [claimFinish_attempts, RATE_LIMIT_maxRetries]
  · intro t s ra h0 h1 h429 h5
    have hr1 : retryableB (t 1) = false := by
      rw [h1]
      simp [retryableB, h429]
      omega
    rw [hequiv]
    unfold claimFetchResult
    rw [if_neg (by simp [h0]), if_pos hr1, h1]
    rfl

/-- A transport answering 429 without Retry-After, then 200. -/
def tOne429 : ℕ → FetchOutcome :=
  fun n => if n = 0 then .resp 429 none else .resp 200 none

theorem C7_fetchWithRetry_amended_witness :
    fetchWithRetry tOne429 = ⟨.ok (1, 200), [claimWaitFor (tOne429 0) 1000], 2⟩ :=
  C7_fetchWithRetry_amended.2.2 tOne429 200 none (by decide) rfl (by decide) (by decide)

/-! ## OAuth token single-flight (ebayApi.ts, getAccessToken)

JS is single threaded: the synchronous prefix of getAccessToken (the cache
check, the lock check, and installing the lock together with issuing the
upstream request, which the async IIFE body reaches before its first await)
runs atomically per caller.  A caller arrival is therefore one atomic step on
the shared state; the fetch resolution is a separate later step.  Fetches are
numbered so sharing the same in-flight request is expressible; requestsIssued
counts upstream token requests. -/

structure TokenState where
  cachedToken : Option ℤ
  tokenExpiresAt : ℤ
  tokenFetchPromise : Option ℕ
  requestsIssued : ℕ
  deriving DecidableEq, Repr

inductive ArrivalResult where
  | cached (tok : ℤ)
  | awaitExisting (fid : ℕ)
  | startedFetch (fid : ℕ)
  deriving DecidableEq, Repr

/-- The cache-miss path: reuse the in-flight promise if any, else install the
lock; the async body then runs synchronously up to its first await, i.e. it
re-checks the cache (unchanged within this same synchronous turn) and issues
the upstream request. -/
def tokenArriveMiss (now : ℤ) (st : TokenState) : TokenState × ArrivalResult :=
  match st.tokenFetchPromise with
  | some fid => (st, .awaitExisting fid)
  | none =>
    let fid := st.requestsIssued
    match st.cachedToken with
    | some tok =>
      if now < st.tokenExpiresAt - 300000 then
        ({ st with tokenFetchPromise := some fid }, .cached tok)
      else
        ({ st with tokenFetchPromise := some fid, requestsIssued := fid + 1 },
          .startedFetch fid)
    | none =>
      ({ st with tokenFetchPromise := some fid, requestsIssued := fid + 1 },
        .startedFetch fid)

/-- One caller of getAccessToken: return the cached token while it is valid
with the 5-minute buffer, else take the miss path. -/
def getAccessTokenArrive (now : ℤ) (st : TokenState) : TokenState × ArrivalResult :=
  match st.cachedToken with
  | some tok =>
    if now < st.tokenExpiresAt - 300000 then (st, .cached tok)
    else tokenArriveMiss now st
  | none => tokenArriveMiss now st

/-- The fetch resolving: the token is cached with its expiry and the finally
block releases the lock. -/
def resolveTokenFetch (st : TokenState) (tok expiresIn now : ℤ) : TokenState :=
  { st with
    cachedToken := some tok
    tokenExpiresAt := now + expiresIn * 1000
    tokenFetchPromise := none }

/-- Sequential interleaving of caller arrivals (all before the resolution). -/
def processArrivals (times : List ℤ) (st : TokenState) :
    TokenState × List ArrivalResult :=
  match times with
  | [] => (st, [])
  | a :: rest =>
    let step := getAccessTokenArrive a st
    let restRes := processArrivals rest step.1
    (restRes.1, step.2 :: restRes.2)

def initialTokenState : TokenState := ⟨none, 0, none, 0⟩

theorem token_steady (ts : List ℤ) (st : TokenState)
    (hc : st.cachedToken = none) (hp : st.tokenFetchPromise = some 0) :
    processArrivals ts st = (st, ts.map (fun _ => ArrivalResult.awaitExisting 0)) := by
  induction ts with
  | nil => rfl
  | cons a rest ih =>
    have harr : getAccessTokenArrive a st = (st, .awaitExisting 0) := by
      simp [getAccessTokenArrive, tokenArriveMiss, hc, hp]
    simp [processArrivals, harr, ih]

/-- Claim C10: with no token cached, any number of callers arriving while the
fetch is in flight results in exactly one upstream token request; the first
caller starts fetch 0 and every later caller awaits that same fetch, and the
resolution of that fetch caches its token and releases the lock. -/
theorem C10_token_single_flight (t : ℤ) (ts : List ℤ) :
    (processArrivals (t :: ts) initialTokenState).1.requestsIssued = 1 ∧
    (processArrivals (t :: ts) initialTokenState).2 =
      ArrivalResult.startedFetch 0 ::
        ts.map (fun _ => ArrivalResult.awaitExisting 0) ∧
    (∀ tok expiresIn now2,
      (resolveTokenFetch (processArrivals (t :: ts) initialTokenState).1
        tok expiresIn now2).cachedToken = some tok ∧
      (resolveTokenFetch (processArrivals (t :: ts) initialTokenState).1
        tok expiresIn now2).tokenFetchPromise = none) := by
  have hfirst : getAccessTokenArrive t initialTokenState =
      (⟨none, 0, some 0, 1⟩, .startedFetch 0) := by
    simp [getAccessTokenArrive, tokenArriveMiss, initialTokenState]
  have hrest := token_steady ts ⟨none, 0, some 0, 1⟩ rfl rfl
  refine ⟨?_, ?_, ?_⟩
  · simp [processArrivals, hfirst, hrest]
  · simp [processArrivals, hfirst, hrest]
  · intro tok expiresIn now2
    simp [processArrivals, hfirst, hrest, resolveTokenFetch]

theorem C6_null_iff_witness :
    isbn10to13 "123" = none ∧ isbn13to10 "9781234" = none :=
  ⟨(C6_null_iff "123").1.mpr (by decide), (C6_null_iff "9781234").2.mpr (by decide)⟩

theorem C10_token_single_flight_witness :
    (processArrivals [5, 6] initialTokenState).1.requestsIssued = 1 ∧
    (processArrivals [5, 6] initialTokenState).2 =
      [ArrivalResult.startedFetch 0, ArrivalResult.awaitExisting 0] :=
  ⟨(C10_token_single_flight 5 [6]).1, (C10_token_single_flight 5 [6]).2.1⟩

theorem C9_counts_example :
    (parseKeepaProduct (fun t => t) 0 rawExample).newOfferCount = 0 ∧
    (parseKeepaProduct (fun t => t) 0 rawExample).buyBoxPrice = some 500 := by
  constructor
  · rfl
  · rfl

end ScanFlow